import Mathlib

/-!
Verification of the keybindings editing service
(src/vs/workbench/services/keybinding/common/keybindingEditing.ts).

The service's own logic (entry matching, the orchestration of the three
public operations, validation/bootstrapping) is translated directly from the
source.  Collaborators that live outside src/ (the structural JSON edit
algorithm from vs/base/common/jsonEdit, the JSON parser from
vs/base/common/json, the context-key expression canonicalizer, the async
Queue and the text model/backing store) are modelled from the spec, at the
granularity the spec describes: structural edits act on the parsed entry
list respectively on entry text spans, the canonicalizer is an abstract
pair of deserialize/serialize functions, and the queue runs tasks to
completion in FIFO order.
-/

set_option autoImplicit false

namespace KbEdit

/-- Parsed user keybinding entry of the keybindings JSON document
(IUserFriendlyKeybinding): a JSON property that is absent is `none`. -/
structure Entry where
  key : Option String
  command : Option String
  when : Option String
deriving DecidableEq

/-- Default value used when reading an entry list out of bounds. -/
def dEntry : Entry := ⟨none, none, none⟩

/-- Model of a ResolvedKeybinding: all the service reads from it is
getUserSettingsLabel(), which may return null (`none`). -/
structure ResolvedKb where
  label : Option String
deriving DecidableEq

/-- ResolvedKeybindingItem as consumed by the editing service, parameterized
by the context-key expression type `E` of the canonicalizer collaborator.
`command` is string-or-null, `when` an already canonicalized expression or
absent, `resolvedKeybinding` may be undefined. -/
structure KeybindingItem (E : Type) where
  command : Option String
  when : Option E
  isDefault : Bool
  resolvedKeybinding : Option ResolvedKb

/-- Strict equality `keybinding.command === keybindingItem.command` of the
source: the entry side is string-or-undefined, the item side string-or-null,
so the comparison is true exactly for two equal strings. -/
def commandEq : Option String → Option String → Bool
  | some a, some b => a == b
  | _, _ => false

/-- JS falsiness of an entry's `when` property: absent or the empty string. -/
def whenFalsy : Option String → Bool
  | none => true
  | some w => w == ""

/-- Loop body test of findUserKeybindingEntryIndex: the command matches
strictly, and either both `when`s are falsy, or both are truthy and the
entry's `when` deserializes to an expression whose serialization equals the
item's serialized `when`. -/
def entryMatches {E : Type} (deser : String → Option E) (ser : E → String)
    (item : KeybindingItem E) (e : Entry) : Bool :=
  commandEq e.command item.command &&
    match item.when with
    | none => whenFalsy e.when
    | some iw =>
      match e.when with
      | none => false
      | some w =>
        !(w == "") &&
          match deser w with
          | none => false
          | some x => ser x == ser iw

/-- Indexed scan of the source's for loop over the parsed entries, carrying
the current index; returns the index of the first match, `-1` otherwise. -/
def findIndexFrom {E : Type} (deser : String → Option E) (ser : E → String)
    (item : KeybindingItem E) : List Entry → Nat → Int
  | [], _ => -1
  | e :: rest, idx =>
    if entryMatches deser ser item e then (idx : Int)
    else findIndexFrom deser ser item rest (idx + 1)

/-- findUserKeybindingEntryIndex of the source. -/
def findUserKeybindingEntryIndex {E : Type} (deser : String → Option E)
    (ser : E → String) (item : KeybindingItem E) (entries : List Entry) : Int :=
  findIndexFrom deser ser item entries 0

/-- String compared against entry commands by
findUnassignedDefaultKeybindingEntryIndex: the JS template literal
stringifies a null command as "null". -/
def negCommandString {E : Type} (item : KeybindingItem E) : String :=
  "-" ++ (match item.command with | some c => c | none => "null")

/-- Indexed collection loop: all indices (ascending) whose entry satisfies
the predicate. -/
def collectIndicesFrom (p : Entry → Bool) : List Entry → Nat → List Nat
  | [], _ => []
  | e :: rest, idx =>
    if p e then idx :: collectIndicesFrom p rest (idx + 1)
    else collectIndicesFrom p rest (idx + 1)

/-- findUnassignedDefaultKeybindingEntryIndex of the source: every index
whose entry's command strictly equals `-` followed by the item's command. -/
def findUnassignedDefaultKeybindingEntryIndex {E : Type}
    (item : KeybindingItem E) (entries : List Entry) : List Nat :=
  collectIndicesFrom (fun e => e.command == some (negCommandString item)) entries 0

/-- asObject of the source: builds the entry to insert; `command` and `when`
properties are only set when the corresponding argument is JS-truthy
(non-null and non-empty), and `command` is negated on request. -/
def asObject (key : String) (command : Option String) (w : Option String)
    (negate : Bool) : Entry :=
  { key := some key
    command :=
      match command with
      | some c => if c == "" then none else some (if negate then "-" ++ c else c)
      | none => none
    when :=
      match w with
      | some s => if s == "" then none else some s
      | none => none }

/-- List-level semantics of updateKeybinding.  The structural edits it
requests from setProperty (vs/base/common/jsonEdit, outside src/) are
modelled from the spec, section 4.2: with a found index, set that element's
`key` property and set/remove its `when` property (the empty edit list for
an absent new `when` on an element without one is a no-op); with index -1,
append a new well-formed element built by asObject. -/
def updateKeybinding {E : Type} (deser : String → Option E) (ser : E → String)
    (item : KeybindingItem E) (newKey : String) (w : Option String)
    (entries : List Entry) : List Entry :=
  let idx := findUserKeybindingEntryIndex deser ser item entries
  if idx == -1 then entries ++ [asObject newKey item.command w false]
  else entries.set idx.toNat { entries.getD idx.toNat dEntry with key := some newKey, when := w }

/-- List-level semantics of removeUserKeybinding: erase the element at the
found index; no edit when the matcher returns -1. -/
def removeUserKeybinding {E : Type} (deser : String → Option E) (ser : E → String)
    (item : KeybindingItem E) (entries : List Entry) : List Entry :=
  let idx := findUserKeybindingEntryIndex deser ser item entries
  if idx == -1 then entries else entries.eraseIdx idx.toNat

/-- List-level semantics of removeDefaultKeybinding: when the resolved
keybinding yields a truthy user-settings label, append the negation entry
built by asObject from the label, the command and the serialized `when`;
otherwise do nothing. -/
def removeDefaultKeybinding {E : Type} (ser : E → String)
    (item : KeybindingItem E) (entries : List Entry) : List Entry :=
  let key :=
    match item.resolvedKeybinding with
    | some rk => rk.label
    | none => none
  match key with
  | some k =>
    if k == "" then entries
    else entries ++ [asObject k item.command (item.when.map ser) true]
  | none => entries

/-- List-level semantics of removeUnassignedDefaultKeybinding: compute all
indices of negation entries on a snapshot, then erase them one by one in
reverse (descending) order. -/
def removeUnassignedDefaultKeybinding {E : Type} (item : KeybindingItem E)
    (entries : List Entry) : List Entry :=
  let indices := (findUnassignedDefaultKeybindingEntryIndex item entries).reverse
  indices.foldl (fun l i => l.eraseIdx i) entries

/-- List-level semantics of doEditKeybinding: update or append the override
entry; when the edited item is a default binding with a resolved keybinding,
additionally run removeDefaultKeybinding. -/
def doEditKeybinding {E : Type} (deser : String → Option E) (ser : E → String)
    (item : KeybindingItem E) (newKey : String) (w : Option String)
    (entries : List Entry) : List Entry :=
  let updated := updateKeybinding deser ser item newKey w entries
  if item.isDefault && item.resolvedKeybinding.isSome then
    removeDefaultKeybinding ser item updated
  else updated

/-- List-level semantics of doRemoveKeybinding: shadow a default binding via
removeDefaultKeybinding, delete a user binding via removeUserKeybinding. -/
def doRemoveKeybinding {E : Type} (deser : String → Option E) (ser : E → String)
    (item : KeybindingItem E) (entries : List Entry) : List Entry :=
  if item.isDefault then removeDefaultKeybinding ser item entries
  else removeUserKeybinding deser ser item entries

/-- List-level semantics of doResetKeybinding: for a non-default item,
delete the matching user entry, then delete every negation entry. -/
def doResetKeybinding {E : Type} (deser : String → Option E) (ser : E → String)
    (item : KeybindingItem E) (entries : List Entry) : List Entry :=
  if !item.isDefault then
    removeUnassignedDefaultKeybinding item (removeUserKeybinding deser ser item entries)
  else entries

/-! ### Concrete canonicalizer instances and sample data

With `E := String`, a canonicalizer is any pair of functions
`String → Option String` / `String → String`; the instances below are used
to evaluate the development on concrete inputs. -/

/-- Canonicalizer deserialization that accepts every serialized form. -/
def someDeser : String → Option String := fun s => some s

/-- Canonicalizer serialization that is the identity on the expression. -/
def idSer : String → String := fun s => s

/-- Canonicalizer deserialization that fails on every string except "ok",
which it parses to the expression "bad". -/
def cDeser10 : String → Option String :=
  fun s => if s == "ok" then some "bad" else none

/-- Sample non-default item whose target expression serializes to "bad". -/
def cItem10 : KeybindingItem String :=
  { command := some "c", when := some "bad", isDefault := false, resolvedKeybinding := none }

/-- Sample entry list: the first entry's when text "bad" is character
identical to the item's serialized when but fails to deserialize under
cDeser10; the second entry's when "ok" deserializes to "bad". -/
def cEntries10 : List Entry :=
  [⟨some "k0", some "c", some "bad"⟩, ⟨some "k1", some "c", some "ok"⟩]

/-- Sample default item with no resolved keybinding (an unbound default):
its user-settings label is unavailable. -/
def cItemD : KeybindingItem String :=
  { command := some "c", when := none, isDefault := true, resolvedKeybinding := none }

/-- Sample default item with a resolvable user-settings label "K". -/
def cItemDR : KeybindingItem String :=
  { command := some "c", when := some "w", isDefault := true,
    resolvedKeybinding := some ⟨some "K"⟩ }

/-- Sample non-default item targeting command "c" under when "x". -/
def cItemR : KeybindingItem String :=
  { command := some "c", when := some "x", isDefault := false, resolvedKeybinding := none }

/-- Sample entry list with two user entries for command "c" that differ in
their when expressions. -/
def cEntriesR : List Entry :=
  [⟨some "a", some "c", some "x"⟩, ⟨some "b", some "c", some "y"⟩]

/-! ### Text-span document model

Modelled from the spec: the Patch Builder's structural-edit collaborator
(vs/base/common/jsonEdit, outside src/) computes minimal byte-range edits.
Spec section 4.2: an edit on an existing element replaces only that
element's span, an append inserts a new element before the closing bracket,
and no bytes outside the minimal affected span are touched.  The document
text is represented structurally as the text before the first element, the
element spans in order, the separator text between elements and the text
after the last element. -/
structure ArrayDoc where
  pre : String
  items : List String
  sep : String
  post : String
deriving DecidableEq

/-- Full text of a document: prefix, the element spans joined by the
separator, suffix. -/
def ArrayDoc.render (d : ArrayDoc) : String :=
  d.pre ++ String.intercalate d.sep d.items ++ d.post

/-- Modelled from the spec: setProperty on path [i, prop] rewrites only the
span of element i (the in-span rewrite is an arbitrary function of the old
span), touching no bytes outside it. -/
def setPropertySpan (f : String → String) (i : Nat) (d : ArrayDoc) : ArrayDoc :=
  { d with items := d.items.set i (f (d.items.getD i "")) }

/-- Modelled from the spec: setProperty on path [-1] appends one new
well-formed element span before the closing bracket. -/
def appendSpan (t : String) (d : ArrayDoc) : ArrayDoc :=
  { d with items := d.items ++ [t] }

/-- Text-level updateKeybinding: with a found index, rewrite the matched
element's span for the key edit and then for the when edit (the latter is
the identity when the edit list is empty); with index -1, append the
rendered new entry. -/
def updateKeybindingDoc (fKey fWhen : String → String) (newText : String)
    (idx : Int) (d : ArrayDoc) : ArrayDoc :=
  if idx == -1 then appendSpan newText d
  else setPropertySpan fWhen idx.toNat (setPropertySpan fKey idx.toNat d)

/-- Text-level removeDefaultKeybinding: append the rendered negation entry
span when the user-settings label is resolvable and truthy. -/
def removeDefaultKeybindingDoc {E : Type} (item : KeybindingItem E)
    (negText : String) (d : ArrayDoc) : ArrayDoc :=
  let key :=
    match item.resolvedKeybinding with
    | some rk => rk.label
    | none => none
  match key with
  | some k => if k == "" then d else appendSpan negText d
  | none => d

/-- Text-level doEditKeybinding over a document given alongside its parsed
entries: update or append the override, then, for a default item with a
resolved keybinding, append the negation entry. -/
def doEditKeybindingDoc {E : Type} (deser : String → Option E)
    (ser : E → String) (item : KeybindingItem E) (entries : List Entry)
    (fKey fWhen : String → String) (newText negText : String)
    (d : ArrayDoc) : ArrayDoc :=
  let idx := findUserKeybindingEntryIndex deser ser item entries
  let d1 := updateKeybindingDoc fKey fWhen newText idx d
  if item.isDefault && item.resolvedKeybinding.isSome then
    removeDefaultKeybindingDoc item negText d1
  else d1

/-- Concrete in-span key rewrite used on sample documents. -/
def cFK : String → String := fun _ => "A2"

/-- Default item matching the sample document's only entry, with a
resolvable label "L". -/
def cItemDC : KeybindingItem String :=
  { command := some "c", when := none, isDefault := true,
    resolvedKeybinding := some ⟨some "L"⟩ }

/-- Parsed entries of the one-entry sample document. -/
def cEntriesDC : List Entry := [⟨some "k", some "c", none⟩]

/-- One-entry sample document. -/
def cDoc : ArrayDoc := ⟨"[", ["A"], ",", "]"⟩

/-- Two-entry sample document whose parse is cEntriesR. -/
def cDoc2 : ArrayDoc := ⟨"[", ["E0", "E1"], ",", "]"⟩

/-! ### JSON values and the parser collaborator

Modelled from the spec: the JSON parser collaborator has the contract
parse(text) → (value, errors).  A small recursive-descent parser over the
character list, with fuel for termination, stands in for it; strings,
numbers, booleans, null, arrays and objects are supported, which covers
every document the development evaluates. -/
inductive Json where
  | null
  | boolean (b : Bool)
  | num (n : Int)
  | str (s : String)
  | arr (items : List Json)
  | obj (fields : List (String × Json))

/-- Whether a JSON value is an array (the isArray check of the source). -/
def Json.isArray : Json → Bool
  | .arr _ => true
  | _ => false

/-- JS falsiness of a parsed JSON value, as tested by `if (parsed.result)`
in the source: null, false, 0 and the empty string are falsy. -/
def Json.jsFalsy : Json → Bool
  | .null => true
  | .boolean b => !b
  | .num n => n == 0
  | .str s => s == ""
  | _ => false

/-- Opening brace character, by code point. -/
def lbrace : Char := Char.ofNat 123

/-- Closing brace character, by code point. -/
def rbrace : Char := Char.ofNat 125

/-- Whitespace test for the parser. -/
def isWsChar (c : Char) : Bool :=
  c == ' ' || c == '\n' || c == '\t' || c == '\r'

/-- Drop leading whitespace. -/
def skipWs : List Char → List Char
  | [] => []
  | c :: rest => if isWsChar c then skipWs rest else c :: rest

/-- Parse the remainder of a string literal after the opening quote,
taking an escaped character verbatim. -/
def parseStringRest : List Char → Option (String × List Char)
  | [] => none
  | c :: rest =>
    if c == '"' then some ("", rest)
    else if c == '\\' then
      match rest with
      | [] => none
      | e :: rest2 =>
        match parseStringRest rest2 with
        | some (s, r) => some (String.mk (e :: s.data), r)
        | none => none
    else
      match parseStringRest rest with
      | some (s, r) => some (String.mk (c :: s.data), r)
      | none => none

/-- Split a leading run of decimal digits from the rest. -/
def takeDigits : List Char → (List Char × List Char)
  | [] => ([], [])
  | c :: rest =>
    if c.isDigit then
      let p := takeDigits rest
      (c :: p.1, p.2)
    else ([], c :: rest)

/-- Numeric value of a digit run. -/
def digitsVal (ds : List Char) : Nat :=
  ds.foldl (fun acc c => acc * 10 + (c.toNat - 48)) 0

mutual

/-- Parse one JSON value; returns the value and the unconsumed suffix. -/
def parseVal : Nat → List Char → Except String (Json × List Char)
  | 0, _ => Except.error "input too deeply nested"
  | fuel + 1, cs =>
    match skipWs cs with
    | 'n' :: 'u' :: 'l' :: 'l' :: r => Except.ok (Json.null, r)
    | 't' :: 'r' :: 'u' :: 'e' :: r => Except.ok (Json.boolean true, r)
    | 'f' :: 'a' :: 'l' :: 's' :: 'e' :: r => Except.ok (Json.boolean false, r)
    | '"' :: r =>
      match parseStringRest r with
      | some (s, r2) => Except.ok (Json.str s, r2)
      | none => Except.error "unterminated string"
    | '[' :: r =>
      match skipWs r with
      | ']' :: r2 => Except.ok (Json.arr [], r2)
      | r2 =>
        match parseItems fuel r2 with
        | Except.ok (xs, r3) => Except.ok (Json.arr xs, r3)
        | Except.error e => Except.error e
    | c :: r =>
      if c == lbrace then
        match skipWs r with
        | c2 :: r2 =>
          if c2 == rbrace then Except.ok (Json.obj [], r2)
          else
            match parseFields fuel (c2 :: r2) with
            | Except.ok (fs, r3) => Except.ok (Json.obj fs, r3)
            | Except.error e => Except.error e
        | [] => Except.error "unterminated object"
      else if c == '-' then
        match takeDigits r with
        | ([], _) => Except.error "digit expected"
        | (ds, r2) => Except.ok (Json.num (-(digitsVal ds : Int)), r2)
      else if c.isDigit then
        match takeDigits (c :: r) with
        | (ds, r2) => Except.ok (Json.num (digitsVal ds), r2)
      else Except.error "value expected"
    | [] => Except.error "value expected"

/-- Parse the elements of a non-empty array up to the closing bracket. -/
def parseItems : Nat → List Char → Except String (List Json × List Char)
  | 0, _ => Except.error "input too deeply nested"
  | fuel + 1, cs =>
    match parseVal fuel cs with
    | Except.error e => Except.error e
    | Except.ok (v, r) =>
      match skipWs r with
      | ',' :: r2 =>
        match parseItems fuel r2 with
        | Except.ok (xs, r3) => Except.ok (v :: xs, r3)
        | Except.error e => Except.error e
      | ']' :: r2 => Except.ok ([v], r2)
      | _ => Except.error "expected comma or closing bracket"

/-- Parse the properties of a non-empty object up to the closing brace. -/
def parseFields : Nat → List Char → Except String (List (String × Json) × List Char)
  | 0, _ => Except.error "input too deeply nested"
  | fuel + 1, cs =>
    match skipWs cs with
    | '"' :: r =>
      match parseStringRest r with
      | none => Except.error "unterminated string"
      | some (k, r2) =>
        match skipWs r2 with
        | ':' :: r3 =>
          match parseVal fuel r3 with
          | Except.error e => Except.error e
          | Except.ok (v, r4) =>
            match skipWs r4 with
            | ',' :: r5 =>
              match parseFields fuel r5 with
              | Except.ok (fs, r6) => Except.ok ((k, v) :: fs, r6)
              | Except.error e => Except.error e
            | c :: r5 =>
              if c == rbrace then Except.ok ([(k, v)], r5)
              else Except.error "expected comma or closing brace"
            | [] => Except.error "unterminated object"
        | _ => Except.error "expected colon"
    | _ => Except.error "expected property name"

end

/-- Modelled from the spec: json.parse(text) yielding (value, errors);
whitespace-only input yields no value and no errors. -/
def jsonParse (s : String) : Option Json × List String :=
  match skipWs s.data with
  | [] => (none, [])
  | cs =>
    match parseVal (2 * s.length + 2) cs with
    | Except.ok (v, r) =>
      match skipWs r with
      | [] => (some v, [])
      | _ => (some v, ["trailing characters"])
    | Except.error e => (none, [e])

/-! ### Document validator and bootstrapper -/

/-- Error kinds surfaced by resolveAndValidate and by a failing backing
store write. -/
inductive KbError where
  | parseError
  | invalidConfiguration
  | ioError
deriving DecidableEq

/-- getEmptyContent of the source: boilerplate comment line plus the empty
array literal, joined by the buffer's line terminator. -/
def getEmptyContent (eol : String) : String :=
  "// " ++ "Place your key bindings in this file to override the defaults"
    ++ eol ++ "[]"

/-- Content handed to the model in resolveModel: the stored text, with the
JS `or` substituting "[]" for an absent or empty read. -/
def resolveModelContent (stored : Option String) : String :=
  match stored with
  | none => "[]"
  | some s => if s == "" then "[]" else s

/-- resolveAndValidate of the source, over the model's current text: empty
text is seeded with the boilerplate; otherwise parse errors reject with
parseError; a truthy non-array value rejects with invalidConfiguration; a
truthy array is returned unchanged; a falsy or absent value gets the empty
array literal appended after the line terminator. -/
def resolveAndValidate (parseFn : String → Option Json × List String)
    (content : String) (eol : String) : Except KbError String :=
  if content == "" then Except.ok (getEmptyContent eol)
  else
    let parsed := parseFn content
    if !parsed.2.isEmpty then Except.error KbError.parseError
    else
      match parsed.1 with
      | some v =>
        if v.jsFalsy then Except.ok (content ++ eol ++ "[]")
        else if v.isArray then Except.ok content
        else Except.error KbError.invalidConfiguration
      | none => Except.ok (content ++ eol ++ "[]")

/-- Composition of resolveModel and resolveAndValidate: the validated text
for a given backing-store state. -/
def resolveAndValidateFromStore (parseFn : String → Option Json × List String)
    (stored : Option String) (eol : String) : Except KbError String :=
  resolveAndValidate parseFn (resolveModelContent stored) eol

/-! ### Run-level model: one queued operation end to end

An operation reads the backing store, validates, mutates the in-memory
buffer, and persists by writing the buffer's final text once, then
disposing the model and destroying it in the model service.  The buffer
text reached after the in-memory patches is abstracted as the canonical
rendering of the resulting entry list (patch fidelity is proved separately
at the entry-list and span levels); the backing-store write either succeeds
atomically or fails leaving the store unchanged. -/

/-- Quoted JSON string (no escaping needed for the rendered fields). -/
def quoteStr (s : String) : String := "\"" ++ s ++ "\""

/-- Rendered property of an entry, when present. -/
def renderField (name : String) (v : Option String) : List String :=
  match v with
  | some s => [quoteStr name ++ ": " ++ quoteStr s]
  | none => []

/-- Canonical text of one entry. -/
def renderEntry (e : Entry) : String :=
  "\x7b " ++
    String.intercalate ", "
      (renderField "key" e.key ++ renderField "command" e.command ++
        renderField "when" e.when) ++ " \x7d"

/-- Canonical text of an entry list. -/
def renderEntries (l : List Entry) : String :=
  match l with
  | [] => "[]"
  | _ => "[ " ++ String.intercalate ", " (l.map renderEntry) ++ " ]"

/-- String-valued property of a parsed JSON object. -/
def lookupStr (fields : List (String × Json)) (name : String) : Option String :=
  match List.lookup name fields with
  | some (Json.str s) => some s
  | _ => none

/-- Entry view of a parsed JSON value, mirroring the source's unchecked
cast of the parse result. -/
def entryOfJson : Json → Entry
  | Json.obj fields =>
    ⟨lookupStr fields "key", lookupStr fields "command", lookupStr fields "when"⟩
  | _ => ⟨none, none, none⟩

/-- Entry list view of a parsed JSON value. -/
def entriesOfJson : Json → List Entry
  | Json.arr xs => xs.map entryOfJson
  | _ => []

/-- Parsed entries of the buffer text, as read back inside the operations. -/
def parseEntries (text : String) : List Entry :=
  match (jsonParse text).1 with
  | some v => entriesOfJson v
  | none => []

/-- Observable events of one operation against its collaborators. -/
inductive Event where
  | read (stored : Option String)
  | write (text : String)
  | dispose
  | destroy

/-- Outcome of one queued operation: the propagated result, the
backing-store state after it, the successful writes, whether the model was
disposed and destroyed, and the event trace. -/
structure OpRun where
  result : Except KbError Unit
  storeAfter : Option String
  writes : List String
  disposed : Bool
  destroyed : Bool
  trace : List Event

/-- One read-modify-write-persist cycle: resolve and validate the store's
content, run the in-memory mutation, then save — the write happens first
and, exactly as in the source's save, the dispose/destroy pair runs only
after the write succeeds (an awaited write failure skips it). -/
def runOperation (mutate : String → Except KbError String)
    (stored : Option String) (writeOk : Bool) : OpRun :=
  match resolveAndValidateFromStore jsonParse stored "\n" with
  | Except.error e => ⟨Except.error e, stored, [], false, false, [Event.read stored]⟩
  | Except.ok text =>
    match mutate text with
    | Except.error e => ⟨Except.error e, stored, [], false, false, [Event.read stored]⟩
    | Except.ok t2 =>
      if writeOk then
        ⟨Except.ok (), some t2, [t2], true, true,
          [Event.read stored, Event.write t2, Event.dispose, Event.destroy]⟩
      else ⟨Except.error KbError.ioError, stored, [], false, false, [Event.read stored]⟩

/-- In-memory mutation of doEditKeybinding over the buffer text. -/
def mutateEdit (item : KeybindingItem String) (key : String) (w : Option String)
    (text : String) : Except KbError String :=
  Except.ok (renderEntries (doEditKeybinding someDeser idSer item key w (parseEntries text)))

/-- In-memory mutation of doRemoveKeybinding over the buffer text. -/
def mutateRemove (item : KeybindingItem String) (text : String) : Except KbError String :=
  Except.ok (renderEntries (doRemoveKeybinding someDeser idSer item (parseEntries text)))

/-- In-memory mutation of doResetKeybinding over the buffer text. -/
def mutateReset (item : KeybindingItem String) (text : String) : Except KbError String :=
  Except.ok (renderEntries (doResetKeybinding someDeser idSer item (parseEntries text)))

/-- Full run of editKeybinding's queued task. -/
def doEditRun (item : KeybindingItem String) (key : String) (w : Option String)
    (stored : Option String) (writeOk : Bool) : OpRun :=
  runOperation (mutateEdit item key w) stored writeOk

/-- Full run of removeKeybinding's queued task. -/
def doRemoveRun (item : KeybindingItem String) (stored : Option String)
    (writeOk : Bool) : OpRun :=
  runOperation (mutateRemove item) stored writeOk

/-- Full run of resetKeybinding's queued task. -/
def doResetRun (item : KeybindingItem String) (stored : Option String)
    (writeOk : Bool) : OpRun :=
  runOperation (mutateReset item) stored writeOk

/-- Whether an operation result is a success. -/
def exceptIsOk : Except KbError Unit → Bool
  | Except.ok _ => true
  | Except.error _ => false

/-- Persistence contract of one run against its starting store: at most
one write; on any failure the store is untouched and nothing was written;
on success exactly one write happened, of the final text, and the store
holds it. -/
def persistSpec (r : OpRun) (stored : Option String) : Prop :=
  r.writes.length ≤ 1 ∧
  (∀ e, r.result = Except.error e → r.storeAfter = stored ∧ r.writes = []) ∧
  (r.result = Except.ok () → ∃ t, r.writes = [t] ∧ r.storeAfter = some t)

/-- Release behavior of one run: the model is disposed and destroyed
exactly when the run succeeded (so a failed write leaks the model). -/
def releaseSpec (r : OpRun) : Prop :=
  r.disposed = exceptIsOk r.result ∧ r.destroyed = exceptIsOk r.result

/-- Public request of the service. -/
inductive Request where
  | edit (item : KeybindingItem String) (key : String) (w : Option String)
  | remove (item : KeybindingItem String)
  | reset (item : KeybindingItem String)

/-- Queued task of one request, given the store it starts from and whether
its write succeeds. -/
def dispatch : Request → Option String → Bool → OpRun
  | Request.edit item key w, stored, writeOk => doEditRun item key w stored writeOk
  | Request.remove item, stored, writeOk => doRemoveRun item stored writeOk
  | Request.reset item, stored, writeOk => doResetRun item stored writeOk

/-- Result of draining the queue: all runs in submission order, the final
store, and the concatenated event trace. -/
structure QueueResult where
  runs : List OpRun
  finalStore : Option String
  trace : List Event

/-- Modelled from the spec: the FIFO Queue (vs/base/common/async, outside
src/) runs each queued task to completion, in submission order, starting a
task only after the previous one finished, whether it succeeded or failed;
a failure does not stop the queue. -/
def processQueue : List (Request × Bool) → Option String → QueueResult
  | [], stored => ⟨[], stored, []⟩
  | rb :: rest, stored =>
    let run := dispatch rb.1 stored rb.2
    let q := processQueue rest run.storeAfter
    ⟨run :: q.runs, q.finalStore, run.trace ++ q.trace⟩

/-- Store left behind by one request. -/
def queueStep (stored : Option String) (rb : Request × Bool) : Option String :=
  (dispatch rb.1 stored rb.2).storeAfter

/-- Default run used when reading the run list out of bounds. -/
def dOpRun : OpRun := ⟨Except.ok (), none, [], false, false, []⟩

/-- Default request used when reading the request list out of bounds. -/
def dReq : Request × Bool := (Request.reset cItemR, true)

/-! ### Helper lemmas -/

theorem findIndexFrom_eq_neg_one_iff {E : Type} (deser : String → Option E)
    (ser : E → String) (item : KeybindingItem E) :
    ∀ (entries : List Entry) (k : Nat),
      (findIndexFrom deser ser item entries k = -1 ↔
        ∀ e ∈ entries, entryMatches deser ser item e = false)
  | [], k => by simp [findIndexFrom]
  | e :: rest, k => by
    cases hm : entryMatches deser ser item e with
    | true =>
      have hk : ((k : Int) ≠ -1) := by omega
      simp only [findIndexFrom, hm, if_true]
      constructor
      · intro hc; exact absurd hc hk
      · intro hall
        exact absurd (hall e (List.mem_cons_self e rest)) (by simp [hm])
    | false =>
      simp only [findIndexFrom, hm, Bool.false_eq_true, if_false, List.mem_cons]
      rw [findIndexFrom_eq_neg_one_iff deser ser item rest (k + 1)]
      constructor
      · intro hall e' he'
        rcases he' with he' | he'
        · subst he'; exact hm
        · exact hall e' he'
      · intro hall e' he'
        exact hall e' (Or.inr he')

theorem findIndexFrom_eq_ofNat {E : Type} (deser : String → Option E)
    (ser : E → String) (item : KeybindingItem E) :
    ∀ (entries : List Entry) (k i : Nat),
      findIndexFrom deser ser item entries k = (i : Int) →
      k ≤ i ∧ i - k < entries.length ∧
        entryMatches deser ser item (entries.getD (i - k) dEntry) = true ∧
        ∀ j, j < i - k → entryMatches deser ser item (entries.getD j dEntry) = false
  | [], k, i => by
    intro h
    exact absurd h (by simp only [findIndexFrom]; omega)
  | e :: rest, k, i => by
    intro h
    cases hm : entryMatches deser ser item e with
    | true =>
      simp only [findIndexFrom, hm, if_true] at h
      have hki : k = i := by omega
      subst hki
      refine ⟨Nat.le_refl k, by simp, ?_, ?_⟩
      · simp [hm]
      · intro j hj; omega
    | false =>
      simp only [findIndexFrom, hm, Bool.false_eq_true, if_false] at h
      obtain ⟨hk1, hlen, hmatch, hprev⟩ :=
        findIndexFrom_eq_ofNat deser ser item rest (k + 1) i h
      have hik : i - k = (i - (k + 1)) + 1 := by omega
      refine ⟨by omega, by simp; omega, ?_, ?_⟩
      · rw [hik]; simpa using hmatch
      · intro j hj
        match j with
        | 0 => simpa using hm
        | j' + 1 =>
          have hj' : j' < i - (k + 1) := by omega
          simpa using hprev j' hj'

theorem foldl_eraseIdx_map_succ {α : Type} :
    ∀ (idxs : List Nat) (a : α) (l : List α),
      List.foldl (fun acc i => acc.eraseIdx i) (a :: l) (idxs.map Nat.succ) =
        a :: List.foldl (fun acc i => acc.eraseIdx i) l idxs
  | [], a, l => rfl
  | i :: idxs, a, l => by
    simp only [List.map_cons, List.foldl_cons, List.eraseIdx_cons_succ]
    exact foldl_eraseIdx_map_succ idxs a (l.eraseIdx i)

theorem collectIndicesFrom_succ (p : Entry → Bool) :
    ∀ (entries : List Entry) (k : Nat),
      collectIndicesFrom p entries (k + 1) = (collectIndicesFrom p entries k).map Nat.succ
  | [], k => rfl
  | e :: rest, k => by
    cases h : p e with
    | true =>
      simp only [collectIndicesFrom, h, if_true, List.map_cons]
      rw [collectIndicesFrom_succ p rest (k + 1)]
    | false =>
      simp only [collectIndicesFrom, h, Bool.false_eq_true, if_false]
      rw [collectIndicesFrom_succ p rest (k + 1)]

/-- Erasing, in descending order, all indices collected for a predicate is
the same as filtering the predicate out. -/
theorem foldl_eraseIdx_collect (p : Entry → Bool) :
    ∀ (entries : List Entry),
      List.foldl (fun l i => l.eraseIdx i) entries (collectIndicesFrom p entries 0).reverse =
        entries.filter (fun e => !(p e))
  | [] => rfl
  | e :: rest => by
    cases h : p e with
    | true =>
      simp only [collectIndicesFrom, h, if_true, List.reverse_cons,
        collectIndicesFrom_succ p rest 0, ← List.map_reverse]
      rw [List.foldl_append, foldl_eraseIdx_map_succ]
      simp only [List.foldl_cons, List.foldl_nil, List.eraseIdx_cons_zero]
      rw [foldl_eraseIdx_collect p rest]
      simp [List.filter, h]
    | false =>
      simp only [collectIndicesFrom, h, Bool.false_eq_true, if_false,
        collectIndicesFrom_succ p rest 0, ← List.map_reverse]
      rw [foldl_eraseIdx_map_succ]
      rw [foldl_eraseIdx_collect p rest]
      simp [List.filter, h]

theorem findIndexFrom_ne_neg_one_nonneg {E : Type} (deser : String → Option E)
    (ser : E → String) (item : KeybindingItem E) :
    ∀ (entries : List Entry) (k : Nat),
      findIndexFrom deser ser item entries k = -1 ∨
        0 ≤ findIndexFrom deser ser item entries k
  | [], _ => Or.inl rfl
  | e :: rest, k => by
    cases hm : entryMatches deser ser item e with
    | true =>
      right
      simp only [findIndexFrom, hm, if_true]
      omega
    | false =>
      simp only [findIndexFrom, hm, Bool.false_eq_true, if_false]
      exact findIndexFrom_ne_neg_one_nonneg deser ser item rest (k + 1)

/-- Under a resolvable non-empty label, a truthy command and a when that
never serializes to the empty string, removeDefaultKeybinding appends
exactly the negation entry of the spec. -/
theorem removeDefaultKeybinding_eq_append {E : Type} (ser : E → String)
    (item : KeybindingItem E) (entries : List Entry) (c k : String)
    (hrk : item.resolvedKeybinding = some ⟨some k⟩) (hk : k ≠ "")
    (hc : item.command = some c) (hc0 : c ≠ "")
    (hser : ∀ w, item.when = some w → ser w ≠ "") :
    removeDefaultKeybinding ser item entries =
      entries ++ [⟨some k, some ("-" ++ c), item.when.map ser⟩] := by
  unfold removeDefaultKeybinding
  rw [hrk]
  simp only
  rw [if_neg (by simpa using hk)]
  congr 1
  unfold asObject
  rw [hc]
  simp only [beq_iff_eq, hc0, if_false, List.cons.injEq]
  constructor
  · cases hw : item.when with
    | none => simp
    | some w =>
      have := hser w hw
      simp [this]
  · trivial

/-- removeUnassignedDefaultKeybinding deletes exactly the entries whose
command is the negated command string. -/
theorem removeUnassignedDefaultKeybinding_eq_filter {E : Type}
    (item : KeybindingItem E) (entries : List Entry) :
    removeUnassignedDefaultKeybinding item entries =
      entries.filter (fun e => !(e.command == some (negCommandString item))) := by
  unfold removeUnassignedDefaultKeybinding findUnassignedDefaultKeybindingEntryIndex
  exact foldl_eraseIdx_collect _ entries

/-- updateKeybinding never shrinks the entry list. -/
theorem updateKeybinding_length {E : Type} (deser : String → Option E)
    (ser : E → String) (item : KeybindingItem E) (newKey : String)
    (w : Option String) (entries : List Entry) :
    entries.length ≤ (updateKeybinding deser ser item newKey w entries).length := by
  unfold updateKeybinding
  by_cases h : findUserKeybindingEntryIndex deser ser item entries == -1
  · rw [if_pos h]
    simp
  · rw [if_neg h]
    simp

/-- updateKeybinding leaves every entry other than the matched index
unchanged. -/
theorem updateKeybinding_frame {E : Type} (deser : String → Option E)
    (ser : E → String) (item : KeybindingItem E) (newKey : String)
    (w : Option String) (entries : List Entry) (j : Nat)
    (hj : j < entries.length)
    (hne : (j : Int) ≠ findUserKeybindingEntryIndex deser ser item entries) :
    (updateKeybinding deser ser item newKey w entries).getD j dEntry =
      entries.getD j dEntry := by
  unfold updateKeybinding
  by_cases h : findUserKeybindingEntryIndex deser ser item entries == -1
  · rw [if_pos h]
    exact List.getD_append entries _ dEntry j hj
  · rw [if_neg h]
    have h' : findUserKeybindingEntryIndex deser ser item entries ≠ -1 := by
      simpa using h
    have hpos : 0 ≤ findUserKeybindingEntryIndex deser ser item entries := by
      rcases findIndexFrom_ne_neg_one_nonneg deser ser item entries 0 with hcase | hcase
      · exact absurd hcase h'
      · exact hcase
    have hnej : (findUserKeybindingEntryIndex deser ser item entries).toNat ≠ j := by
      intro hEq
      apply hne
      omega
    simp [List.getD, List.getElem?_set_ne hnej]

theorem persistSpec_runOperation (mutate : String → Except KbError String)
    (stored : Option String) (writeOk : Bool) :
    persistSpec (runOperation mutate stored writeOk) stored := by
  cases hr : resolveAndValidateFromStore jsonParse stored "\n" with
  | error e => simp [persistSpec, runOperation, hr]
  | ok text =>
    cases hm : mutate text with
    | error e2 => simp [persistSpec, runOperation, hr, hm]
    | ok t2 =>
      cases writeOk with
      | true => simp [persistSpec, runOperation, hr, hm]
      | false => simp [persistSpec, runOperation, hr, hm]

theorem releaseSpec_runOperation (mutate : String → Except KbError String)
    (stored : Option String) (writeOk : Bool) :
    releaseSpec (runOperation mutate stored writeOk) := by
  cases hr : resolveAndValidateFromStore jsonParse stored "\n" with
  | error e => simp [releaseSpec, runOperation, hr, exceptIsOk]
  | ok text =>
    cases hm : mutate text with
    | error e2 => simp [releaseSpec, runOperation, hr, hm, exceptIsOk]
    | ok t2 =>
      cases writeOk with
      | true => simp [releaseSpec, runOperation, hr, hm, exceptIsOk]
      | false => simp [releaseSpec, runOperation, hr, hm, exceptIsOk]

/-! ### Claim theorems -/

/-- C2: for every parsed entry list, target command and target when
expression, findUserKeybindingEntryIndex returns the index of the first
entry (in list order) that matches — command strictly equal, and the whens
either both absent (absent or empty, the source's falsiness test) or both
present with the entry's when deserializing to an expression that
serializes identically to the item's when — and returns -1 exactly when no
entry matches; duplicates after the first matching index are never
reported. -/
theorem c2_find_first_match {E : Type} (deser : String → Option E)
    (ser : E → String) (item : KeybindingItem E) (entries : List Entry) :
    (findUserKeybindingEntryIndex deser ser item entries = -1 ↔
      ∀ e ∈ entries, entryMatches deser ser item e = false) ∧
    ∀ i : Nat, findUserKeybindingEntryIndex deser ser item entries = (i : Int) →
      i < entries.length ∧
      entryMatches deser ser item (entries.getD i dEntry) = true ∧
      ∀ j, j < i → entryMatches deser ser item (entries.getD j dEntry) = false := by
  constructor
  · exact findIndexFrom_eq_neg_one_iff deser ser item entries 0
  · intro i h
    obtain ⟨-, hlen, hmatch, hprev⟩ :=
      findIndexFrom_eq_ofNat deser ser item entries 0 i h
    simp only [Nat.sub_zero] at hlen hmatch hprev
    exact ⟨hlen, hmatch, hprev⟩

/-- Witness for C2 at a concrete input: the matcher skips the non-matching
first entry and reports the matching second entry, index 1. -/
theorem c2_witness :
    (findUserKeybindingEntryIndex someDeser idSer cItem10
        [⟨some "k1", some "other", none⟩, ⟨some "k2", some "c", some "bad"⟩] = -1 ↔
      ∀ e ∈ [Entry.mk (some "k1") (some "other") none,
             Entry.mk (some "k2") (some "c") (some "bad")],
        entryMatches someDeser idSer cItem10 e = false) ∧
    ∀ i : Nat, findUserKeybindingEntryIndex someDeser idSer cItem10
        [⟨some "k1", some "other", none⟩, ⟨some "k2", some "c", some "bad"⟩] = (i : Int) →
      i < [Entry.mk (some "k1") (some "other") none,
           Entry.mk (some "k2") (some "c") (some "bad")].length ∧
      entryMatches someDeser idSer cItem10
        ([Entry.mk (some "k1") (some "other") none,
          Entry.mk (some "k2") (some "c") (some "bad")].getD i dEntry) = true ∧
      ∀ j, j < i → entryMatches someDeser idSer cItem10
        ([Entry.mk (some "k1") (some "other") none,
          Entry.mk (some "k2") (some "c") (some "bad")].getD j dEntry) = false :=
  c2_find_first_match someDeser idSer cItem10
    [⟨some "k1", some "other", none⟩, ⟨some "k2", some "c", some "bad"⟩]

/-- C10: the matcher never returns the index of an entry whose present
(truthy, i.e. non-empty) when string fails to deserialize: a returned index
always carries a when that is either falsy or deserializes successfully,
even when the entry's when text is character-identical to the item's
serialized when.  The witness exhibits the skip: the unparseable entry 0 is
passed over and entry 1 is returned instead. -/
theorem c10_skip_unparseable {E : Type} (deser : String → Option E)
    (ser : E → String) (item : KeybindingItem E) (entries : List Entry)
    (i : Nat) (w : String)
    (hfind : findUserKeybindingEntryIndex deser ser item entries = (i : Int))
    (hw : (entries.getD i dEntry).when = some w) (hne : w ≠ "") :
    deser w ≠ none := by
  obtain ⟨-, -, hmatch, -⟩ :=
    findIndexFrom_eq_ofNat deser ser item entries 0 i hfind
  simp only [Nat.sub_zero] at hmatch
  unfold entryMatches at hmatch
  rw [Bool.and_eq_true] at hmatch
  obtain ⟨-, hwhen⟩ := hmatch
  cases hiw : item.when with
  | none =>
    rw [hiw, hw] at hwhen
    simp [whenFalsy, hne] at hwhen
  | some iw =>
    rw [hiw, hw] at hwhen
    cases hd : deser w with
    | none => simp [hd] at hwhen
    | some x => simp [hd]

/-- Witness for C10: with cDeser10, entry 0's when "bad" (equal to the
item's serialized when) fails to deserialize, the matcher returns index 1,
and the returned entry's when "ok" does deserialize. -/
theorem c10_witness :
    findUserKeybindingEntryIndex cDeser10 idSer cItem10 cEntries10 = ((1 : Nat) : Int) ∧
    (cEntries10.getD 1 dEntry).when = some "ok" ∧ "ok" ≠ "" ∧
    cDeser10 "ok" ≠ none :=
  ⟨by decide, by decide, by decide,
    c10_skip_unparseable cDeser10 idSer cItem10 cEntries10 1 "ok"
      (by decide) (by decide) (by decide)⟩

/-- C1 counterexample: a remove targeting a default binding whose key label
is not resolvable (no resolved keybinding) appends no negation entry at
all, so it is not the case that every remove on a default binding appends
exactly one negation entry. -/
theorem c1_counterexample :
    doRemoveKeybinding someDeser idSer cItemD [] = ([] : List Entry) ∧
    ¬ ∃ e : Entry, doRemoveKeybinding someDeser idSer cItemD [] = [e] := by
  refine ⟨rfl, ?_⟩
  rintro ⟨e, he⟩
  rw [show doRemoveKeybinding someDeser idSer cItemD [] = ([] : List Entry) from rfl] at he
  exact List.noConfusion he

/-- C1 (amended): for an assign on a default item with a resolvable key
label, the operation appends exactly one negation entry (resolved key
label, negated command, current when) after the update-or-append of the
override entry,
deleting no existing entry; a remove on a default item appends exactly this
negation entry provided (amendment) its key label is resolvable.  The
truthiness side conditions of the source (non-empty label, command and
serialized when) are hypotheses. -/
theorem c1_default_negation_append {E : Type} (deser : String → Option E)
    (ser : E → String) (item : KeybindingItem E) (newKey : String)
    (newWhen : Option String) (entries : List Entry) (c k : String)
    (hdef : item.isDefault = true)
    (hrk : item.resolvedKeybinding = some ⟨some k⟩) (hk : k ≠ "")
    (hc : item.command = some c) (hc0 : c ≠ "")
    (hser : ∀ w, item.when = some w → ser w ≠ "") :
    doEditKeybinding deser ser item newKey newWhen entries =
      updateKeybinding deser ser item newKey newWhen entries ++
        [⟨some k, some ("-" ++ c), item.when.map ser⟩] ∧
    doRemoveKeybinding deser ser item entries =
      entries ++ [⟨some k, some ("-" ++ c), item.when.map ser⟩] ∧
    entries.length ≤ (updateKeybinding deser ser item newKey newWhen entries).length ∧
    ∀ j, j < entries.length →
      (j : Int) ≠ findUserKeybindingEntryIndex deser ser item entries →
      (updateKeybinding deser ser item newKey newWhen entries).getD j dEntry =
        entries.getD j dEntry := by
  refine ⟨?_, ?_, updateKeybinding_length deser ser item newKey newWhen entries, ?_⟩
  · unfold doEditKeybinding
    rw [hdef, hrk]
    simp only [Option.isSome_some, Bool.and_self, if_true]
    exact removeDefaultKeybinding_eq_append ser item _ c k hrk hk hc hc0 hser
  · unfold doRemoveKeybinding
    rw [hdef]
    simp only [if_true]
    exact removeDefaultKeybinding_eq_append ser item entries c k hrk hk hc hc0 hser
  · intro j hj hne
    exact updateKeybinding_frame deser ser item newKey newWhen entries j hj hne

/-- Witness for C1 at a concrete default item with label "K": assigning
"nk" appends the override and then the negation entry; removing appends the
negation entry only. -/
theorem c1_witness :
    cItemDR.isDefault = true ∧
    cItemDR.resolvedKeybinding = some ⟨some "K"⟩ ∧ "K" ≠ "" ∧
    cItemDR.command = some "c" ∧ "c" ≠ "" ∧
    (∀ w, cItemDR.when = some w → idSer w ≠ "") ∧
    (doEditKeybinding someDeser idSer cItemDR "nk" none [] =
      updateKeybinding someDeser idSer cItemDR "nk" none [] ++
        [⟨some "K", some ("-" ++ "c"), cItemDR.when.map idSer⟩] ∧
    doRemoveKeybinding someDeser idSer cItemDR [] =
      [] ++ [⟨some "K", some ("-" ++ "c"), cItemDR.when.map idSer⟩] ∧
    List.length ([] : List Entry) ≤
      (updateKeybinding someDeser idSer cItemDR "nk" none []).length ∧
    ∀ j, j < List.length ([] : List Entry) →
      (j : Int) ≠ findUserKeybindingEntryIndex someDeser idSer cItemDR [] →
      (updateKeybinding someDeser idSer cItemDR "nk" none []).getD j dEntry =
        ([] : List Entry).getD j dEntry) :=
  ⟨rfl, rfl, by decide, rfl, by decide,
    fun w h => by
      simp only [cItemDR, Option.some.injEq] at h
      subst h
      decide,
    c1_default_negation_append someDeser idSer cItemDR "nk" none [] "c" "K"
      rfl rfl (by decide) rfl (by decide)
      (fun w h => by
        simp only [cItemDR, Option.some.injEq] at h
        subst h
        decide)⟩

/-- C3 counterexample: resetting the user binding for command "c" with when
"x" against a document holding two user entries for "c" (whens "x" and "y")
deletes only the first matching entry; an entry with command "c" survives,
so re-parsing does not yield zero entries with that command. -/
theorem c3_counterexample :
    doResetKeybinding someDeser idSer cItemR cEntriesR =
      [⟨some "b", some "c", some "y"⟩] ∧
    List.countP (fun e => e.command == some "c")
      (doResetKeybinding someDeser idSer cItemR cEntriesR) = 1 :=
  ⟨by decide, by decide⟩

/-- C3 (amended): reset on a non-default item with command c deletes the
first user entry matching (c, currentWhen) and every negation entry for c:
afterwards zero entries carry command "-"+c, and the result is exactly the
matcher-based single deletion followed by filtering out all negation
entries; entries with command c whose when does not match may remain. -/
theorem c3_reset_removes {E : Type} (deser : String → Option E)
    (ser : E → String) (item : KeybindingItem E) (entries : List Entry)
    (c : String) (hnd : item.isDefault = false) (hc : item.command = some c) :
    doResetKeybinding deser ser item entries =
      (removeUserKeybinding deser ser item entries).filter
        (fun e => !(e.command == some ("-" ++ c))) ∧
    List.countP (fun e => e.command == some ("-" ++ c))
      (doResetKeybinding deser ser item entries) = 0 := by
  have hneg : negCommandString item = "-" ++ c := by
    unfold negCommandString
    rw [hc]
  have hmain : doResetKeybinding deser ser item entries =
      (removeUserKeybinding deser ser item entries).filter
        (fun e => !(e.command == some ("-" ++ c))) := by
    unfold doResetKeybinding
    rw [hnd]
    simp only [Bool.not_false, if_true]
    rw [removeUnassignedDefaultKeybinding_eq_filter, hneg]
  refine ⟨hmain, ?_⟩
  rw [hmain, List.countP_eq_zero]
  intro a ha
  have h2 := (List.mem_filter.mp ha).2
  simp only [Bool.not_eq_true'] at h2
  simp [h2]

/-- Witness for C3 at the concrete two-entry document: the reset outcome
equals the single matched deletion filtered of negation entries and carries
no "-c" entry. -/
theorem c3_witness :
    cItemR.isDefault = false ∧ cItemR.command = some "c" ∧
    (doResetKeybinding someDeser idSer cItemR cEntriesR =
      (removeUserKeybinding someDeser idSer cItemR cEntriesR).filter
        (fun e => !(e.command == some ("-" ++ "c"))) ∧
    List.countP (fun e => e.command == some ("-" ++ "c"))
      (doResetKeybinding someDeser idSer cItemR cEntriesR) = 0) :=
  ⟨rfl, rfl, c3_reset_removes someDeser idSer cItemR cEntriesR "c" rfl rfl⟩

/-- C4 counterexample: an assign whose item is a default binding with a
resolvable label, matching the existing single user entry, appends a
negation entry: the resulting text gains a second element span, so the
document does not differ from the original only within the matched entry's
span. -/
theorem c4_counterexample :
    (doEditKeybindingDoc someDeser idSer cItemDC cEntriesDC cFK id "N" "G" cDoc).items.length = 2 ∧
    cDoc.items.length = 1 ∧
    ¬ ∃ s, doEditKeybindingDoc someDeser idSer cItemDC cEntriesDC cFK id "N" "G" cDoc =
      ArrayDoc.mk "[" [s] "," "]" := by
  refine ⟨by decide, by decide, ?_⟩
  rintro ⟨s, hs⟩
  have hlen : (doEditKeybindingDoc someDeser idSer cItemDC cEntriesDC cFK id "N" "G" cDoc).items.length = 2 := by
    decide
  rw [hs] at hlen
  simp at hlen

/-- C4 (amended): for every assign whose item is not a default binding with
a resolved keybinding and that matches an existing user entry at index i,
the resulting document keeps the prefix, separator and suffix text, keeps
the element count, and keeps every element span other than span i
byte-identical, in order; only the matched span is rewritten (by the key
and when property edits). -/
theorem c4_edit_frame {E : Type} (deser : String → Option E)
    (ser : E → String) (item : KeybindingItem E) (entries : List Entry)
    (fKey fWhen : String → String) (newText negText : String)
    (d : ArrayDoc) (i : Nat)
    (hnd : item.isDefault = false ∨ item.resolvedKeybinding = none)
    (hfound : findUserKeybindingEntryIndex deser ser item entries = (i : Int)) :
    (doEditKeybindingDoc deser ser item entries fKey fWhen newText negText d).pre = d.pre ∧
    (doEditKeybindingDoc deser ser item entries fKey fWhen newText negText d).sep = d.sep ∧
    (doEditKeybindingDoc deser ser item entries fKey fWhen newText negText d).post = d.post ∧
    (doEditKeybindingDoc deser ser item entries fKey fWhen newText negText d).items.length =
      d.items.length ∧
    ∀ j, j ≠ i →
      (doEditKeybindingDoc deser ser item entries fKey fWhen newText negText d).items.getD j "" =
        d.items.getD j "" := by
  have hcond : (item.isDefault && item.resolvedKeybinding.isSome) = false := by
    rcases hnd with h | h <;> simp [h]
  have hne : ¬(findUserKeybindingEntryIndex deser ser item entries == -1) = true := by
    rw [hfound]
    simp only [beq_iff_eq]
    omega
  have hred : doEditKeybindingDoc deser ser item entries fKey fWhen newText negText d =
      setPropertySpan fWhen i (setPropertySpan fKey i d) := by
    unfold doEditKeybindingDoc
    rw [hcond]
    simp only [Bool.false_eq_true, if_false]
    unfold updateKeybindingDoc
    rw [if_neg hne, hfound]
    simp
  rw [hred]
  refine ⟨rfl, rfl, rfl, by simp [setPropertySpan], ?_⟩
  intro j hj
  simp [setPropertySpan, List.getD, List.getElem?_set_ne (Ne.symm hj)]

/-- Witness for C4: a non-default assign matching entry 0 of the two-entry
sample document leaves the prefix, separator, suffix, element count and
element span 1 unchanged. -/
theorem c4_witness :
    (cItemR.isDefault = false ∨ cItemR.resolvedKeybinding = none) ∧
    findUserKeybindingEntryIndex someDeser idSer cItemR cEntriesR = ((0 : Nat) : Int) ∧
    ((doEditKeybindingDoc someDeser idSer cItemR cEntriesR cFK id "N" "G" cDoc2).pre = cDoc2.pre ∧
    (doEditKeybindingDoc someDeser idSer cItemR cEntriesR cFK id "N" "G" cDoc2).sep = cDoc2.sep ∧
    (doEditKeybindingDoc someDeser idSer cItemR cEntriesR cFK id "N" "G" cDoc2).post = cDoc2.post ∧
    (doEditKeybindingDoc someDeser idSer cItemR cEntriesR cFK id "N" "G" cDoc2).items.length =
      cDoc2.items.length ∧
    ∀ j, j ≠ 0 →
      (doEditKeybindingDoc someDeser idSer cItemR cEntriesR cFK id "N" "G" cDoc2).items.getD j "" =
        cDoc2.items.getD j "") :=
  ⟨Or.inl rfl, by decide,
    c4_edit_frame someDeser idSer cItemR cEntriesR cFK id "N" "G" cDoc2 0
      (Or.inl rfl) (by decide)⟩

/-- C5 counterexample: with an empty backing store the validated buffer
text is exactly "[]" — resolveModel substitutes the empty array literal
before validation ever runs — and not the claimed placeholder comment line
plus the empty array literal. -/
theorem c5_counterexample :
    resolveAndValidateFromStore jsonParse none "\n" = Except.ok "[]" ∧
    getEmptyContent "\n" ≠ "[]" :=
  ⟨rfl, by decide⟩

/-- C5 (amended): when the backing store is empty (holds nothing or an
empty document), the resolved and validated buffer text is the empty array
literal "[]" — the placeholder-comment seeding branch is unreachable in
this composition — and that text re-parses as an empty JSON array. -/
theorem c5_empty_bootstrap (stored : Option String) (eol : String)
    (h : stored = none ∨ stored = some "") :
    resolveAndValidateFromStore jsonParse stored eol = Except.ok "[]" ∧
    jsonParse "[]" = (some (Json.arr []), []) := by
  rcases h with h | h <;> subst h <;> exact ⟨rfl, rfl⟩

/-- Witness for C5: the absent-store case evaluates to "[]", which
re-parses as the empty array. -/
theorem c5_witness :
    ((none : Option String) = none ∨ (none : Option String) = some "") ∧
    (resolveAndValidateFromStore jsonParse none "\n" = Except.ok "[]" ∧
      jsonParse "[]" = (some (Json.arr []), [])) :=
  ⟨Or.inl rfl, c5_empty_bootstrap none "\n" (Or.inl rfl)⟩

/-- C6 counterexample: the content "0" is non-empty, parses without errors
and its top-level value is not an array, yet resolveAndValidate does not
fail with the invalid-shape error: 0 is JS-falsy, so the source takes the
append branch and succeeds. -/
theorem c6_counterexample :
    jsonParse "0" = (some (Json.num 0), []) ∧
    Json.isArray (Json.num 0) = false ∧
    resolveAndValidate jsonParse "0" "\n" = Except.ok "0\n[]" :=
  ⟨rfl, rfl, rfl⟩

/-- C6 (amended): resolveAndValidate fails with the parse error exactly
when the content is non-empty and the parser reports errors; it fails with
the invalid-shape error exactly when the content is non-empty, parses
without errors and yields a truthy (not null, false, 0 or "") top-level
value that is not an array; in every other case it succeeds (returning the
content, the seeded boilerplate, or the content with an empty array literal
appended). -/
theorem c6_validate_errors (parseFn : String → Option Json × List String)
    (content eol : String) :
    (resolveAndValidate parseFn content eol = Except.error KbError.parseError ↔
      content ≠ "" ∧ (parseFn content).2 ≠ []) ∧
    (resolveAndValidate parseFn content eol = Except.error KbError.invalidConfiguration ↔
      content ≠ "" ∧ (parseFn content).2 = [] ∧
      ∃ v, (parseFn content).1 = some v ∧ v.jsFalsy = false ∧ v.isArray = false) ∧
    ((∃ t, resolveAndValidate parseFn content eol = Except.ok t) ↔
      ¬(content ≠ "" ∧ (parseFn content).2 ≠ []) ∧
      ¬(content ≠ "" ∧ (parseFn content).2 = [] ∧
        ∃ v, (parseFn content).1 = some v ∧ v.jsFalsy = false ∧ v.isArray = false)) := by
  by_cases h0 : content = ""
  · subst h0
    simp [resolveAndValidate]
  · by_cases he : (parseFn content).2 = []
    · cases hv : (parseFn content).1 with
      | none => simp [resolveAndValidate, h0, he, hv]
      | some v =>
        by_cases hf : v.jsFalsy
        · simp [resolveAndValidate, h0, he, hv, hf]
        · by_cases ha : v.isArray
          · simp [resolveAndValidate, h0, he, hv, hf, ha]
          · simp [resolveAndValidate, h0, he, hv, hf, ha]
    · simp [resolveAndValidate, h0, he]

/-- Witness for C6 at the concrete parser and content "[]": no error
condition holds and validation succeeds. -/
theorem c6_witness :
    (resolveAndValidate jsonParse "[]" "\n" = Except.error KbError.parseError ↔
      "[]" ≠ "" ∧ (jsonParse "[]").2 ≠ []) ∧
    (resolveAndValidate jsonParse "[]" "\n" = Except.error KbError.invalidConfiguration ↔
      "[]" ≠ "" ∧ (jsonParse "[]").2 = [] ∧
      ∃ v, (jsonParse "[]").1 = some v ∧ v.jsFalsy = false ∧ v.isArray = false) ∧
    ((∃ t, resolveAndValidate jsonParse "[]" "\n" = Except.ok t) ↔
      ¬("[]" ≠ "" ∧ (jsonParse "[]").2 ≠ []) ∧
      ¬("[]" ≠ "" ∧ (jsonParse "[]").2 = [] ∧
        ∃ v, (jsonParse "[]").1 = some v ∧ v.jsFalsy = false ∧ v.isArray = false)) :=
  c6_validate_errors jsonParse "[]" "\n"

/-- C7: for each of the three operations and for an arbitrary in-memory
mutation step, a failure at any point before the final persist step leaves
the backing store byte-for-byte unchanged with no write performed, the
store is written at most once per operation (at the end, after the
in-memory patches succeeded), and the failure propagates as the run's
result. -/
theorem c7_no_partial_writes (item : KeybindingItem String) (key : String)
    (w : Option String) (stored : Option String) (writeOk : Bool)
    (mutate : String → Except KbError String) :
    persistSpec (doEditRun item key w stored writeOk) stored ∧
    persistSpec (doRemoveRun item stored writeOk) stored ∧
    persistSpec (doResetRun item stored writeOk) stored ∧
    persistSpec (runOperation mutate stored writeOk) stored :=
  ⟨persistSpec_runOperation (mutateEdit item key w) stored writeOk,
    persistSpec_runOperation (mutateRemove item) stored writeOk,
    persistSpec_runOperation (mutateReset item) stored writeOk,
    persistSpec_runOperation mutate stored writeOk⟩

/-- Witness for C7 at a concrete item and store. -/
theorem c7_witness :
    persistSpec (doEditRun cItemR "k" none (some "[]") true) (some "[]") ∧
    persistSpec (doRemoveRun cItemR (some "[]") true) (some "[]") ∧
    persistSpec (doResetRun cItemR (some "[]") true) (some "[]") ∧
    persistSpec (runOperation (mutateEdit cItemR "k" none) (some "[]") true) (some "[]") :=
  c7_no_partial_writes cItemR "k" none (some "[]") true (mutateEdit cItemR "k" none)

/-- C8 counterexample: when the backing-store write fails, the model is
neither disposed nor destroyed — the source awaits the write before the
dispose/destroy pair and has no finally block — contradicting the claimed
unconditional release at the end of the persist step. -/
theorem c8_counterexample :
    (doRemoveRun cItemR (some "[]") false).disposed = false ∧
    (doRemoveRun cItemR (some "[]") false).destroyed = false ∧
    (doRemoveRun cItemR (some "[]") false).result = Except.error KbError.ioError :=
  ⟨rfl, rfl, rfl⟩

/-- C8 (amended): for every operation, the model is disposed and destroyed
in the model service exactly when the run succeeds; on a write failure (or
any earlier failure) the model is not released. -/
theorem c8_dispose_iff_ok (item : KeybindingItem String) (key : String)
    (w : Option String) (stored : Option String) (writeOk : Bool)
    (mutate : String → Except KbError String) :
    releaseSpec (doEditRun item key w stored writeOk) ∧
    releaseSpec (doRemoveRun item stored writeOk) ∧
    releaseSpec (doResetRun item stored writeOk) ∧
    releaseSpec (runOperation mutate stored writeOk) :=
  ⟨releaseSpec_runOperation (mutateEdit item key w) stored writeOk,
    releaseSpec_runOperation (mutateRemove item) stored writeOk,
    releaseSpec_runOperation (mutateReset item) stored writeOk,
    releaseSpec_runOperation mutate stored writeOk⟩

/-- Witness for C8 at a concrete item and store, for both write outcomes
of the remove operation via the generic run. -/
theorem c8_witness :
    releaseSpec (doEditRun cItemDR "k" none (some "[]") true) ∧
    releaseSpec (doRemoveRun cItemDR (some "[]") true) ∧
    releaseSpec (doResetRun cItemDR (some "[]") true) ∧
    releaseSpec (runOperation (mutateEdit cItemDR "k" none) (some "[]") true) :=
  c8_dispose_iff_ok cItemDR "k" none (some "[]") true (mutateEdit cItemDR "k" none)

/-- C9: all requests of one service instance drain through a single FIFO
queue: each run count matches the request count (a failure does not abort
queued requests), the final store equals the left fold of the runs in
submission order, the trace is the concatenation of the per-run traces with
no interleaving, and the i-th run is exactly the i-th request executed
against the store left by its predecessors. -/
theorem c9_fifo_queue (reqs : List (Request × Bool)) (stored : Option String) :
    (processQueue reqs stored).runs.length = reqs.length ∧
    (processQueue reqs stored).finalStore = List.foldl queueStep stored reqs ∧
    (processQueue reqs stored).trace =
      ((processQueue reqs stored).runs.map OpRun.trace).flatten ∧
    ∀ i, i < reqs.length →
      (processQueue reqs stored).runs.getD i dOpRun =
        dispatch (reqs.getD i dReq).1
          (List.foldl queueStep stored (reqs.take i)) (reqs.getD i dReq).2 := by
  induction reqs generalizing stored with
  | nil =>
    refine ⟨rfl, rfl, rfl, ?_⟩
    intro i hi
    exact absurd hi (by simp)
  | cons rb rest ih =>
    obtain ⟨ih1, ih2, ih3, ih4⟩ := ih (dispatch rb.1 stored rb.2).storeAfter
    refine ⟨?_, ?_, ?_, ?_⟩
    · simp [processQueue, ih1]
    · simp only [processQueue, List.foldl_cons]
      rw [ih2]
      rfl
    · simp only [processQueue, List.map_cons, List.flatten_cons]
      rw [ih3]
    · intro i hi
      match i with
      | 0 => simp [processQueue]
      | i' + 1 =>
        have hi' : i' < rest.length := by simpa using hi
        have hrec := ih4 i' hi'
        simp only [processQueue, List.getD_cons_succ, List.take_succ_cons,
          List.foldl_cons]
        rw [hrec]
        rfl

/-- Witness for C9 on a two-request queue: an edit whose write succeeds
followed by a remove whose write fails. -/
theorem c9_witness :
    (processQueue [(Request.edit cItemDR "k" none, true), (Request.remove cItemR, false)]
        (some "[]")).runs.length =
      [(Request.edit cItemDR "k" none, true), (Request.remove cItemR, false)].length ∧
    (processQueue [(Request.edit cItemDR "k" none, true), (Request.remove cItemR, false)]
        (some "[]")).finalStore =
      List.foldl queueStep (some "[]")
        [(Request.edit cItemDR "k" none, true), (Request.remove cItemR, false)] ∧
    (processQueue [(Request.edit cItemDR "k" none, true), (Request.remove cItemR, false)]
        (some "[]")).trace =
      ((processQueue [(Request.edit cItemDR "k" none, true), (Request.remove cItemR, false)]
          (some "[]")).runs.map OpRun.trace).flatten ∧
    ∀ i, i < [(Request.edit cItemDR "k" none, true), (Request.remove cItemR, false)].length →
      (processQueue [(Request.edit cItemDR "k" none, true), (Request.remove cItemR, false)]
          (some "[]")).runs.getD i dOpRun =
        dispatch ([(Request.edit cItemDR "k" none, true),
            (Request.remove cItemR, false)].getD i dReq).1
          (List.foldl queueStep (some "[]")
            ([(Request.edit cItemDR "k" none, true),
              (Request.remove cItemR, false)].take i))
          ([(Request.edit cItemDR "k" none, true),
            (Request.remove cItemR, false)].getD i dReq).2 :=
  c9_fifo_queue [(Request.edit cItemDR "k" none, true), (Request.remove cItemR, false)]
    (some "[]")

end KbEdit
